import Mathlib

/-!
Verification of the `delivery` streaming server (src/delivery.c).

The development shallow-embeds the server's state and operations:

* the C globals `fd[MAXCLIENT]` / `cnt` become an ordered list `St.registry`
  (the array prefix `fd[0..cnt-1]`, so `cnt = registry.length`);
* `src` (the `popen` handle), `reopen` (the SIGHUP flag) and the blocking
  mode of the listening socket become fields of `St`; ghost fields
  (`spawns`, `closes`, `closedFds`) record how often `popen`/`pclose` ran
  and which client descriptors were `close`d;
* system-call outcomes (accept results, `fread` results, per-`write`
  results) are explicit event inputs, so every branch of the C control
  flow is represented;
* the filesystem artifacts (`SOCKFILE`, `PIDFILE`, the lock) become a
  `World` record, and `die`'s unlink/cleanup effects act on it.

Every definition is translated directly from the function of the same
name in src/delivery.c.
-/

namespace Delivery

/-! ## Constants (src/delivery.c lines 100-103, plus the errno values used) -/

def MAXCLIENT : Nat := 1024

/-- errno EINTR (retry condition in the read and write loops). -/
def EINTR : Nat := 4

/-- errno EAGAIN = EWOULDBLOCK on Linux (retry / would-block condition). -/
def EAGAIN : Nat := 11

/-- errno EBADF, the code passed to `die` when `popen` fails in `open_src`. -/
def EBADF : Nat := 9

/-- `#define DELIVERYPID "_DELIVERY_PID"` (line 100). -/
def DELIVERYPID : String := "_DELIVERY_PID"

/-! ## State -/

/-- One connected client: its descriptor and its blocking mode
(`mk_blocking(client_fd)` is applied before the descriptor is stored). -/
structure Client where
  cfd : Nat
  blocking : Bool
deriving DecidableEq, Repr

/-- The server's mutable globals (src/delivery.c lines 112-123), plus ghost
fields recording observable events:
`registry` is the prefix `fd[0..cnt-1]` of the client array,
`listenCreated` is `src_fd != 0`, `listenB` the blocking mode of the
listening socket, `src` whether the popen'd source is open, `reopen` the
SIGHUP flag; `spawns` counts `popen` calls, `closes` counts `pclose`
calls, and `closedFds` lists client descriptors passed to `close`. -/
structure St where
  registry : List Client
  listenCreated : Bool
  listenB : Bool
  src : Bool
  reopen : Bool
  spawns : Nat
  closes : Nat
  closedFds : List Nat
deriving DecidableEq, Repr

/-- ANSI C zero-initialised static state: no clients, no socket, no source. -/
def initSt : St := ⟨[], false, false, false, false, 0, 0, []⟩

/-- The filesystem artifacts shared between server instances: the socket
file, the pid file and the lock file, plus whether another process holds
the exclusive `flock`. -/
structure World where
  sockExists : Bool
  pidExists : Bool
  lockFileExists : Bool
  lockHeldByOther : Bool
deriving DecidableEq, Repr

/-! ## die and the cleanup helpers (lines 140-156, 189-192, 232-240) -/

/-- `rm_sockfile` (lines 232-240): closes the listening socket if open and
unlinks `SOCKFILE` unconditionally. -/
def rm_sockfile (s : St) (w : World) : St × World :=
  ({ s with listenCreated := false }, { w with sockExists := false })

/-- `rm_pidfile` (lines 189-192): unlinks `PIDFILE` unconditionally. -/
def rm_pidfile (w : World) : World :=
  { w with pidExists := false }

/-- `close_src` (lines 355-367): if the source is open, `pclose` it
(ghost-counted in `closes`); the `reopen` flag is always cleared. -/
def close_src (s : St) : St :=
  if s.src then { s with src := false, reopen := false, closes := s.closes + 1 }
  else { s with reopen := false }

/-- Result of a process exit: the status passed to `exit`, the state after
cleanup, and the filesystem world after cleanup. -/
structure Exit where
  status : Nat
  st : St
  world : World
deriving DecidableEq, Repr

/-- `die` (lines 143-156): `rm_sockfile(); rm_pidfile();` diagnostic,
`close_src();` then `while (cnt) close(fd[--cnt]);` and `exit(e)`.
Clients are closed from the top of the array down, hence the `reverse`. -/
def die (e : Nat) (s : St) (w : World) : Exit :=
  let sw := rm_sockfile s w
  let w2 := rm_pidfile sw.2
  let s2 := close_src sw.1
  let s3 := { s2 with registry := ([] : List Client), closedFds := s2.closedFds ++ (s2.registry.map Client.cfd).reverse }
  ⟨e, s3, w2⟩

/-! ## write_buf (lines 444-477) -/

/-- Outcome of one `write(2)` call: `wrote n` for a return of `n ≥ 0`
bytes, `werr e` for a return of `-1` with `errno == e`. -/
inductive WriteRes where
  | wrote (n : Nat)
  | werr (e : Nat)
deriving DecidableEq, Repr

/-- The inner retry loop of `write_buf` (lines 450-458):
`for (off = 0; nr != 0; nr -= nw, off += nw)` with `nw = write(...)`;
a negative return sets `nw = 0` and breaks unless `errno == EINTR`.
The list is the sequence of `write` outcomes for this client; the `Nat`
is the remaining byte count `nr`.  `some true` = complete buffer written,
`some false` = non-retryable failure with bytes remaining,
`none` = the modelled outcome trace ended while the loop was still going. -/
def write_client : List WriteRes → Nat → Option Bool
  | _, 0 => some true
  | [], _ + 1 => none
  | .wrote n :: rs, m + 1 => write_client rs (m + 1 - n)
  | .werr e :: rs, m + 1 =>
      if e = EINTR then write_client rs (m + 1) else some false

/-- Result of one broadcast pass: the surviving registry, the descriptors
closed (dropped clients, in pass order) and the descriptors that received
the complete buffer (in pass order). -/
structure WbOut where
  reg : List Client
  dropped : List Nat
  delivered : List Nat
deriving DecidableEq, Repr

/-- `write_buf` (lines 444-477): walk the registry in order; a client whose
write completes is kept (`i += 1`), a client with a non-retryable failure
is `close`d and removed by shifting all later entries down one slot
(`fd[j-1] = fd[j]; fd[--cnt] = 0`), after which the pass continues with
the next client.  `wtr j` is the `write` outcome trace for the client at
position `j` of the pre-pass registry; `bufsz` is the buffer size. -/
def write_buf (bufsz : Nat) (wtr : Nat → List WriteRes) : List Client → Option WbOut
  | [] => some ⟨[], [], []⟩
  | c :: rest =>
    match write_client (wtr 0) bufsz, write_buf bufsz (fun j => wtr (j + 1)) rest with
    | none, _ => none
    | some _, none => none
    | some true, some o => some ⟨c :: o.reg, o.dropped, c.cfd :: o.delivered⟩
    | some false, some o => some ⟨o.reg, c.cfd :: o.dropped, o.delivered⟩

/-- If every client's write completes, the pass keeps the whole registry,
closes nobody and delivers to everybody. -/
lemma write_buf_all_ok (bufsz : Nat) :
    ∀ (l : List Client) (wtr : Nat → List WriteRes),
      (∀ j, j < l.length → write_client (wtr j) bufsz = some true) →
      write_buf bufsz wtr l = some ⟨l, [], l.map Client.cfd⟩ := by
  intro l
  induction l with
  | nil => intro wtr _; rfl
  | cons c rest ih =>
    intro wtr h
    have h0 : write_client (wtr 0) bufsz = some true := h 0 (by simp)
    have hrest : write_buf bufsz (fun j => wtr (j + 1)) rest =
        some ⟨rest, [], rest.map Client.cfd⟩ :=
      ih (fun j => wtr (j + 1)) (fun j hj => h (j + 1) (by simpa using Nat.succ_lt_succ hj))
    simp [write_buf, h0, hrest]

/-- C1: during one broadcast pass (`write_buf`), for every registry and
every position `k` whose write fails with a non-retryable error while all
other clients' writes complete: exactly that client is removed and its
descriptor closed, the others keep their relative order (the result is
`eraseIdx k`, i.e. later entries shift down), the registry shrinks by
exactly one, and every other client — including those after `k` in the
same pass — still receives the complete buffer. -/
theorem write_buf_single_failure (bufsz : Nat) :
    ∀ (l : List Client) (wtr : Nat → List WriteRes) (k : Nat) (hk : k < l.length),
      write_client (wtr k) bufsz = some false →
      (∀ j, j < l.length → j ≠ k → write_client (wtr j) bufsz = some true) →
      write_buf bufsz wtr l =
        some ⟨l.eraseIdx k, [(l.get ⟨k, hk⟩).cfd], (l.eraseIdx k).map Client.cfd⟩
      ∧ (l.eraseIdx k).length + 1 = l.length := by
  intro l
  induction l with
  | nil => intro wtr k hk _ _; exact absurd hk (by simp)
  | cons c rest ih =>
    intro wtr k hk hfail hok
    cases k with
    | zero =>
      have hrest : write_buf bufsz (fun j => wtr (j + 1)) rest =
          some ⟨rest, [], rest.map Client.cfd⟩ :=
        write_buf_all_ok bufsz rest (fun j => wtr (j + 1))
          (fun j hj => hok (j + 1) (by simpa using Nat.succ_lt_succ hj) (by simp))
      refine ⟨?_, by simp⟩
      simp [write_buf, hfail, hrest]
    | succ k' =>
      have hk' : k' < rest.length := Nat.lt_of_succ_lt_succ hk
      have h0 : write_client (wtr 0) bufsz = some true :=
        hok 0 (by simp) (by simp)
      have hih := ih (fun j => wtr (j + 1)) k' hk' hfail
        (fun j hj hne =>
          hok (j + 1) (by simpa using Nat.succ_lt_succ hj) (by simpa using hne))
      refine ⟨?_, ?_⟩
      · have hget : ((c :: rest).get ⟨k' + 1, hk⟩) = rest.get ⟨k', hk'⟩ := rfl
        simp [write_buf, h0, hih.1, List.eraseIdx_cons_succ, hget]
      · have := hih.2
        simp only [List.eraseIdx_cons_succ, List.length_cons]
        omega

/-- Witness for C1: a concrete three-client pass in which the middle
client's write fails outright and the other two complete. -/
theorem write_buf_single_failure_witness :
    write_buf 2 (fun j => if j = 1 then [.werr 32] else [.wrote 2])
        [⟨10, true⟩, ⟨11, true⟩, ⟨12, true⟩] =
      some ⟨[⟨10, true⟩, ⟨12, true⟩], [11], [10, 12]⟩
    ∧ ([(⟨10, true⟩ : Client), ⟨11, true⟩, ⟨12, true⟩].eraseIdx 1).length + 1 = 3 := by
  have h := write_buf_single_failure 2
    [⟨10, true⟩, ⟨11, true⟩, ⟨12, true⟩]
    (fun j => if j = 1 then [.werr 32] else [.wrote 2])
    1 (by decide) (by decide) (by decide)
  exact ⟨h.1, h.2⟩

/-! ## Source-process manager (lines 348-397) -/

/-- `reopen_src` (lines 348-353), the SIGHUP handler: sets the `reopen`
flag, but only if the source is currently open (`if ( src ) reopen = 1`). -/
def reopen_src (s : St) : St :=
  if s.src then { s with reopen := true } else s

/-- `open_src` (lines 383-397), with `cnt` the client count read from the
registry by the caller and `spawnOk` whether `popen` succeeds:
`if (reopen || cnt == 0) close_src(); if (src || cnt == 0) return;`
then `popen` the command (ghost-counted in `spawns`), dying with
`EBADF` on failure.  The error carries the state at the point of death. -/
def open_src (spawnOk : Bool) (cnt : Nat) (s : St) : Except (Nat × St) St :=
  let s1 := if s.reopen = true ∨ cnt = 0 then close_src s else s
  if s1.src = true ∨ cnt = 0 then .ok s1
  else if spawnOk then .ok { s1 with src := true, spawns := s1.spawns + 1 }
  else .error (EBADF, s1)

/-- One iteration of the source manager as seen from the server loop:
the client count at this iteration, and whether one or more SIGHUP restart
requests arrived since the previous iteration (coalesced into one flag,
as the C `reopen` int is). -/
structure SrcEv where
  cnt : Nat
  restart : Bool
deriving DecidableEq, Repr

/-- A run of source-manager iterations: each iteration first delivers the
pending restart signal (if any) through the `reopen_src` handler, then
executes `open_src` with that iteration's client count.  `popen` is
assumed to succeed (`spawnOk = true`). -/
def src_trace : List SrcEv → St → Except (Nat × St) St
  | [], s => .ok s
  | ev :: evs, s =>
    match open_src true ev.cnt (if ev.restart = true then reopen_src s else s) with
    | .ok s' => src_trace evs s'
    | .error x => .error x

/-- The client count of the last iteration (`p` before any iteration). -/
def last_cnt : Nat → List SrcEv → Nat
  | p, [] => p
  | _, ev :: evs => last_cnt ev.cnt evs

/-- Expected number of `popen` calls along a run, given the previous
iteration's client count `p`: one whenever clients are present and either
the source was closed (`p = 0`) or a restart request arrived. -/
def spawn_count : Nat → List SrcEv → Nat
  | _, [] => 0
  | p, ev :: evs =>
    (if 0 < ev.cnt ∧ (p = 0 ∨ ev.restart = true) then 1 else 0) + spawn_count ev.cnt evs

/-- Number of transitions of the registry from zero clients to one or more. -/
def zero_to_pos_count : Nat → List SrcEv → Nat
  | _, [] => 0
  | p, ev :: evs =>
    (if p = 0 ∧ 0 < ev.cnt then 1 else 0) + zero_to_pos_count ev.cnt evs

/-- Number of restart requests consumed while at least one client is
connected (the handler only latches the flag while the source is open,
i.e. while the previous count was positive). -/
def restart_consumed_count : Nat → List SrcEv → Nat
  | _, [] => 0
  | p, ev :: evs =>
    (if 0 < p ∧ 0 < ev.cnt ∧ ev.restart = true then 1 else 0) +
      restart_consumed_count ev.cnt evs

/-- `close_src` does not spawn. -/
lemma close_src_spawns (s : St) : (close_src s).spawns = s.spawns := by
  by_cases h : s.src <;> simp [close_src, h]

/-- After `close_src` the source is closed. -/
lemma close_src_src (s : St) : (close_src s).src = false := by
  by_cases h : s.src <;> simp [close_src, h]

/-- One source-manager step, symbolically: from a state whose source is
open exactly when the previous count `p` was positive and whose flag is
clear, the step succeeds, leaves the source open exactly when the new
count is positive, clears the flag, and spawns exactly when clients are
present and the source was closed or a restart arrived. -/
lemma open_src_step (cnt p : Nat) (r : Bool) (s : St)
    (hsrc : s.src = decide (0 < p)) (hre : s.reopen = false) :
    ∃ s', open_src true cnt (if r = true then reopen_src s else s) = .ok s'
      ∧ s'.src = decide (0 < cnt) ∧ s'.reopen = false
      ∧ s'.spawns = s.spawns + (if 0 < cnt ∧ (p = 0 ∨ r = true) then 1 else 0)
      ∧ s'.registry = s.registry := by
  rcases Nat.eq_zero_or_pos p with hp | hp <;>
    rcases Nat.eq_zero_or_pos cnt with hc | hc <;>
      cases r <;>
        simp_all [open_src, close_src, reopen_src, Nat.pos_iff_ne_zero]

/-- A whole run succeeds and its spawn count is `spawn_count`. -/
lemma src_trace_ok : ∀ (evs : List SrcEv) (p : Nat) (s : St),
    s.src = decide (0 < p) → s.reopen = false →
    ∃ s', src_trace evs s = .ok s'
      ∧ s'.spawns = s.spawns + spawn_count p evs
      ∧ s'.src = decide (0 < last_cnt p evs) ∧ s'.reopen = false := by
  intro evs
  induction evs with
  | nil =>
    intro p s hsrc hre
    exact ⟨s, rfl, by simp [spawn_count], by simpa [last_cnt] using hsrc, hre⟩
  | cons ev evs ih =>
    intro p s hsrc hre
    obtain ⟨s1, hstep, hsrc1, hre1, hsp1, _⟩ := open_src_step ev.cnt p ev.restart s hsrc hre
    obtain ⟨s', hrun, hsp', hsrc', hre'⟩ := ih ev.cnt s1 hsrc1 hre1
    refine ⟨s', ?_, ?_, by simpa [last_cnt] using hsrc', hre'⟩
    · simp only [src_trace]
      rw [show (if ev.restart = true then reopen_src s else s) =
            (if ev.restart = true then reopen_src s else s) from rfl, hstep]
      exact hrun
    · rw [hsp', hsp1]
      simp [spawn_count]
      omega

/-- C2: along every run of source-manager iterations from the initial
(closed) state, the number of `popen` calls equals the number of
zero-to-positive transitions of the client count plus the number of
restart requests consumed with clients connected; a single `open_src`
step never spawns when the source is already open with no pending
restart (it is a no-op), each step's spawn increment is exactly
characterised, and the source being open when the step returns implies
the client count was positive. -/
theorem open_src_spawn_discipline :
    (∀ evs : List SrcEv, ∃ s', src_trace evs initSt = .ok s'
       ∧ s'.spawns = zero_to_pos_count 0 evs + restart_consumed_count 0 evs
       ∧ (s'.src = true → 0 < last_cnt 0 evs))
    ∧ (∀ (p : Nat) (evs : List SrcEv),
         spawn_count p evs = zero_to_pos_count p evs + restart_consumed_count p evs)
    ∧ (∀ (ok : Bool) (cnt : Nat) (s s' : St), open_src ok cnt s = .ok s' →
         s'.spawns = s.spawns +
           (if 0 < cnt ∧ (s.reopen = true ∨ s.src = false) then 1 else 0))
    ∧ (∀ (ok : Bool) (cnt : Nat) (s : St),
         s.src = true → s.reopen = false → 0 < cnt → open_src ok cnt s = .ok s)
    ∧ (∀ (ok : Bool) (cnt : Nat) (s s' : St),
         open_src ok cnt s = .ok s' → s'.src = true → 0 < cnt) := by
  have hdecomp : ∀ (p : Nat) (evs : List SrcEv),
      spawn_count p evs = zero_to_pos_count p evs + restart_consumed_count p evs := by
    intro p evs
    induction evs generalizing p with
    | nil => simp [spawn_count, zero_to_pos_count, restart_consumed_count]
    | cons ev evs ih =>
      simp only [spawn_count, zero_to_pos_count, restart_consumed_count, ih ev.cnt]
      by_cases hp : p = 0 <;> by_cases hc : ev.cnt = 0 <;>
        cases hr : ev.restart <;>
          simp [hp, hc, hr, Nat.pos_iff_ne_zero] <;> omega
  have hspawns : ∀ (ok : Bool) (cnt : Nat) (s s' : St), open_src ok cnt s = .ok s' →
      s'.spawns = s.spawns +
        (if 0 < cnt ∧ (s.reopen = true ∨ s.src = false) then 1 else 0) := by
    intro ok cnt s s' h
    by_cases hc : cnt = 0
    · have hs' : close_src s = s' := by simpa [open_src, hc] using h
      rw [← hs', close_src_spawns]
      simp [hc]
    · by_cases hre : s.reopen = true
      · cases ok with
        | true =>
          have hs' : ({ close_src s with
              src := true
              spawns := (close_src s).spawns + 1 } : St) = s' := by
            simpa [open_src, hre, hc, close_src_src] using h
          rw [← hs']
          simp [close_src_spawns, hre, hc, Nat.pos_iff_ne_zero]
        | false =>
          exact absurd h (by simp [open_src, hre, hc, close_src_src])
      · by_cases hsrc : s.src = true
        · have hs' : s = s' := by simpa [open_src, hre, hc, hsrc] using h
          rw [← hs']
          simp [Bool.not_eq_true] at hre
          simp [hre, hsrc]
        · simp [Bool.not_eq_true] at hre hsrc
          cases ok with
          | true =>
            have hs' : ({ s with src := true, spawns := s.spawns + 1 } : St) = s' := by
              simpa [open_src, hre, hc, hsrc] using h
            rw [← hs']
            simp [hc, hsrc, Nat.pos_iff_ne_zero]
          | false =>
            exact absurd h (by simp [open_src, hre, hc, hsrc])
  refine ⟨?_, hdecomp, hspawns, ?_, ?_⟩
  · intro evs
    obtain ⟨s', hrun, hsp, hsrc, _⟩ :=
      src_trace_ok evs 0 initSt (by simp [initSt]) (by simp [initSt])
    refine ⟨s', hrun, ?_, ?_⟩
    · rw [hsp, hdecomp]; simp [initSt]
    · intro h
      rw [h] at hsrc
      simpa using hsrc.symm
  · intro ok cnt s hsrc hre hc
    simp [open_src, close_src, hsrc, hre, Nat.pos_iff_ne_zero.mp hc]
  · intro ok cnt s s' h hsrc
    by_cases hc : cnt = 0
    · subst hc
      have hs' : close_src s = s' := by simpa [open_src] using h
      rw [← hs', close_src_src] at hsrc
      exact absurd hsrc (by simp)
    · exact Nat.pos_of_ne_zero hc

/-- Witness for C2: a concrete run — a client connects (one spawn), a
restart is consumed with the client still present (one more spawn), the
client leaves (source closed), and the per-step clauses at concrete
states. -/
theorem open_src_spawn_discipline_witness :
    (∃ s', src_trace [⟨1, false⟩, ⟨1, true⟩, ⟨0, false⟩] initSt = .ok s'
       ∧ s'.spawns = zero_to_pos_count 0 [⟨1, false⟩, ⟨1, true⟩, ⟨0, false⟩] +
           restart_consumed_count 0 [⟨1, false⟩, ⟨1, true⟩, ⟨0, false⟩]
       ∧ (s'.src = true → 0 < last_cnt 0 [⟨1, false⟩, ⟨1, true⟩, ⟨0, false⟩]))
    ∧ open_src true 3 ⟨[⟨5, true⟩], true, false, true, false, 1, 0, []⟩ =
        .ok ⟨[⟨5, true⟩], true, false, true, false, 1, 0, []⟩ := by
  refine ⟨open_src_spawn_discipline.1 [⟨1, false⟩, ⟨1, true⟩, ⟨0, false⟩], ?_⟩
  exact open_src_spawn_discipline.2.2.2.1 true 3
    ⟨[⟨5, true⟩], true, false, true, false, 1, 0, []⟩ rfl rfl (by decide)

/-- C5: restart coalescing.  Setting the restart flag `n ≥ 1` times before
the next `open_src` consumes it is equivalent to setting it once — the
handler is idempotent — and, with the source open and clients connected,
the consuming `open_src` performs exactly one close/reopen cycle
(`closes` and `spawns` each advance by exactly one), not one per request. -/
theorem restart_coalescing :
    ∀ (n : Nat), 1 ≤ n → ∀ (s : St),
      reopen_src^[n] s = reopen_src s
      ∧ (∀ (ok : Bool) (cnt : Nat),
           open_src ok cnt (reopen_src^[n] s) = open_src ok cnt (reopen_src s))
      ∧ (s.src = true → ∀ cnt : Nat, 0 < cnt →
           open_src true cnt (reopen_src^[n] s) =
             .ok { s with
                   src := true
                   reopen := false
                   spawns := s.spawns + 1
                   closes := s.closes + 1 }) := by
  have hiter : ∀ (n : Nat) (s : St), reopen_src^[n + 1] s = reopen_src s := by
    intro n
    induction n with
    | zero => intro s; rfl
    | succ m ih =>
      intro s
      rw [Function.iterate_succ_apply, ih (reopen_src s)]
      by_cases h : s.src = true
      · simp [reopen_src, h]
      · simp only [reopen_src]
        simp [h]
  intro n hn s
  obtain ⟨m, rfl⟩ : ∃ m, n = m + 1 := ⟨n - 1, by omega⟩
  refine ⟨hiter m s, fun ok cnt => by rw [hiter m s], ?_⟩
  intro hsrc cnt hc
  rw [hiter m s]
  simp [reopen_src, open_src, close_src, hsrc, Nat.pos_iff_ne_zero.mp hc]

/-- Witness for C5: three restart requests before one `open_src`, from an
open-source state with one client: exactly one close and one respawn. -/
theorem restart_coalescing_witness :
    open_src true 1 (reopen_src^[3] ⟨[⟨5, true⟩], true, false, true, false, 1, 0, []⟩) =
      .ok ⟨[⟨5, true⟩], true, false, true, false, 2, 1, []⟩ := by
  have h := (restart_coalescing 3 (by decide)
      ⟨[⟨5, true⟩], true, false, true, false, 1, 0, []⟩).2.2 rfl 1 (by decide)
  exact h

/-- C7: a consumed restart (`reopen_src` then `open_src` with clients
present) closes and respawns the producer exactly once and is a frame on
everything else: the registry is identical before and after, no client
descriptor is closed, and the listening socket is untouched. -/
theorem restart_preserves_clients :
    ∀ (cnt : Nat) (s : St), s.src = true → 0 < cnt →
      ∃ s', open_src true cnt (reopen_src s) = .ok s'
        ∧ s'.registry = s.registry
        ∧ s'.closedFds = s.closedFds
        ∧ s'.listenCreated = s.listenCreated
        ∧ s'.listenB = s.listenB
        ∧ s'.src = true
        ∧ s'.spawns = s.spawns + 1
        ∧ s'.closes = s.closes + 1 := by
  intro cnt s hsrc hc
  refine ⟨{ s with
            src := true
            reopen := false
            spawns := s.spawns + 1
            closes := s.closes + 1 }, ?_, by simp, by simp,
          by simp, by simp, by simp, by simp, by simp⟩
  simp [reopen_src, open_src, close_src, hsrc, Nat.pos_iff_ne_zero.mp hc]

/-- Witness for C7: the concrete one-client restart scenario. -/
theorem restart_preserves_clients_witness :
    ∃ s', open_src true 1 (reopen_src ⟨[⟨5, true⟩], true, false, true, false, 1, 0, []⟩) = .ok s'
      ∧ s'.registry = [⟨5, true⟩]
      ∧ s'.closedFds = []
      ∧ s'.listenCreated = true
      ∧ s'.listenB = false
      ∧ s'.src = true
      ∧ s'.spawns = 2
      ∧ s'.closes = 1 := by
  obtain ⟨s', h1, h2, h3, h4, h5, h6, h7, h8⟩ :=
    restart_preserves_clients 1 ⟨[⟨5, true⟩], true, false, true, false, 1, 0, []⟩ rfl (by decide)
  exact ⟨s', h1, h2, h3, h4, h5, h6, h7, h8⟩

/-! ## Connection acceptor (lines 261-343) -/

/-- Outcome of one `accept(2)` call: a new connection with descriptor
`cfd`, or `-1` with `errno` EWOULDBLOCK (normal exit), EINTR (retry), or
any other error `e` (fatal). -/
inductive AcceptEv where
  | conn (cfd : Nat)
  | wouldBlock
  | intr
  | aerr (e : Nat)
deriving DecidableEq, Repr

/-- The `accept_client:` loop of `check_for_new_clients` (lines 309-343):
EWOULDBLOCK returns, EINTR retries, any other error dies; on a new
connection the listening socket is made non-blocking, the client socket
is made blocking, and the client is appended unless the registry is at
`MAXCLIENT` (in which case the new descriptor is closed); then the loop
repeats.  An exhausted event list also returns (no further accepts are
modelled). -/
def accept_loop : List AcceptEv → St → Except (Nat × St) St
  | [], s => .ok s
  | .wouldBlock :: _, s => .ok s
  | .intr :: evs, s => accept_loop evs s
  | .aerr e :: _, s => .error (e, s)
  | .conn c :: evs, s =>
    let s1 := { s with listenB := false }
    if s1.registry.length = MAXCLIENT then
      accept_loop evs { s1 with closedFds := s1.closedFds ++ [c] }
    else
      accept_loop evs { s1 with registry := s1.registry ++ [⟨c, true⟩] }

/-- First-call setup of `check_for_new_clients` (lines 267-291): create,
bind and listen on the socket; a fresh socket is blocking by default. -/
def mk_listen_socket (s : St) : St :=
  if s.listenCreated then s else { s with listenCreated := true, listenB := true }

/-- The every-call mode adjustment (lines 303-307): make the listening
socket blocking iff there are no clients (`if (cnt == 0) mk_blocking`). -/
def set_listen_mode (s : St) : St :=
  if s.registry.length = 0 then { s with listenB := true } else s

/-- `check_for_new_clients` (lines 261-343): lazy socket creation, mode
adjustment, then the accept loop. -/
def check_for_new_clients (evs : List AcceptEv) (s : St) : Except (Nat × St) St :=
  accept_loop evs (set_listen_mode (mk_listen_socket s))

/-- The accept loop preserves the mode invariant and only appends
blocking-mode clients. -/
lemma accept_loop_inv : ∀ (evs : List AcceptEv) (s s' : St),
    (s.listenB = true ↔ s.registry = []) → accept_loop evs s = .ok s' →
    (s'.listenB = true ↔ s'.registry = [])
    ∧ ∃ new, s'.registry = s.registry ++ new ∧ ∀ c ∈ new, c.blocking = true := by
  intro evs
  induction evs with
  | nil =>
    intro s s' hinv h
    simp only [accept_loop] at h
    injection h with h
    subst h
    exact ⟨hinv, [], by simp, by simp⟩
  | cons ev evs ih =>
    intro s s' hinv h
    cases ev with
    | wouldBlock =>
      simp only [accept_loop] at h
      injection h with h
      subst h
      exact ⟨hinv, [], by simp, by simp⟩
    | intr =>
      exact ih s s' hinv (by simpa [accept_loop] using h)
    | aerr e =>
      simp [accept_loop] at h
    | conn c =>
      simp only [accept_loop] at h
      by_cases hcap : s.registry.length = MAXCLIENT
      · rw [if_pos hcap] at h
        have hne : s.registry ≠ [] := by
          intro hemp
          rw [hemp] at hcap
          simp [MAXCLIENT] at hcap
        obtain ⟨hinv', new, hreg, hbl⟩ :=
          ih _ s' (by simp [hne]) h
        exact ⟨hinv', new, by simpa using hreg, hbl⟩
      · rw [if_neg hcap] at h
        obtain ⟨hinv', new, hreg, hbl⟩ :=
          ih _ s' (by simp) h
        refine ⟨hinv', ⟨c, true⟩ :: new, ?_, ?_⟩
        · simpa using hreg
        · intro x hx
          rcases List.mem_cons.mp hx with hx | hx
          · rw [hx]
          · exact hbl x hx

/-- C6: the listening socket's blocking mode is `blocking` exactly when
the registry is empty: after the per-call mode adjustment the mode equals
emptiness of the registry, the invariant still holds when
`check_for_new_clients` returns, and every freshly accepted client is in
blocking mode when appended (the registry grows only by a suffix of
blocking-mode clients). -/
theorem listen_blocking_iff_empty :
    ∀ (s : St) (evs : List AcceptEv),
      (s.registry ≠ [] → s.listenB = false) →
      (s.listenCreated = false → s.registry = []) →
      ((set_listen_mode (mk_listen_socket s)).listenB = true ↔
        (set_listen_mode (mk_listen_socket s)).registry = [])
      ∧ ∀ s', check_for_new_clients evs s = .ok s' →
          ((s'.listenB = true ↔ s'.registry = [])
           ∧ ∃ new, s'.registry = s.registry ++ new ∧ ∀ c ∈ new, c.blocking = true) := by
  intro s evs h1 h2
  have hadjreg : (set_listen_mode (mk_listen_socket s)).registry = s.registry := by
    by_cases hc : s.listenCreated <;> by_cases hr : s.registry.length = 0 <;>
      simp [set_listen_mode, mk_listen_socket, hc, hr]
  have hadj : (set_listen_mode (mk_listen_socket s)).listenB = true ↔
      (set_listen_mode (mk_listen_socket s)).registry = [] := by
    rw [hadjreg]
    by_cases hr : s.registry = []
    · by_cases hc : s.listenCreated <;>
        simp [set_listen_mode, mk_listen_socket, hc, hr]
    · have hlen : ¬s.registry.length = 0 := by
        simpa [List.length_eq_zero] using hr
      have hcreated : s.listenCreated = true := by
        by_contra hcon
        exact hr (h2 (by simpa using hcon))
      simp [set_listen_mode, mk_listen_socket, hcreated, hlen, h1 hr, hr]
  refine ⟨hadj, fun s' h => ?_⟩
  obtain ⟨hinv', new, hreg, hbl⟩ := accept_loop_inv evs _ s' hadj h
  exact ⟨hinv', new, by rwa [hadjreg] at hreg, hbl⟩

/-- Witness for C6: from the empty initial state, one client connects and
the accept loop then reports would-block. -/
theorem listen_blocking_iff_empty_witness :
    ((set_listen_mode (mk_listen_socket initSt)).listenB = true ↔
      (set_listen_mode (mk_listen_socket initSt)).registry = [])
    ∧ ∀ s', check_for_new_clients [.conn 7, .wouldBlock] initSt = .ok s' →
        ((s'.listenB = true ↔ s'.registry = [])
         ∧ ∃ new, s'.registry = initSt.registry ++ new ∧ ∀ c ∈ new, c.blocking = true) :=
  listen_blocking_iff_empty initSt [.conn 7, .wouldBlock]
    (by simp [initSt]) (fun _ => rfl)

/-! ## read_buf (lines 402-439) -/

/-- Outcome of one `fread` attempt: `rok` for a full item read
(`err == 1`), `rfail e` for a return `< 1` with `errno == e` at the loop
test (for a clean end-of-stream `fread` sets no errno, so `e` is whatever
errno already was — possibly `0`). -/
inductive ReadRes where
  | rok
  | rfail (e : Nat)
deriving DecidableEq, Repr

/-- Result of `read_buf`: a full buffer was read, or the retry loop ended
with a short/failed read and `die("fread", errno)` is invoked with the
prevailing errno, or the modelled attempt trace was exhausted while the
loop was still retrying. -/
inductive ReadOut where
  | rok
  | rdied (e : Nat)
  | rstuck
deriving DecidableEq, Repr

/-- The retry loop of `read_buf` (lines 432-436):
`do err = fread(buffer, bufsz, 1, src); while (err < 1 && (errno == EINTR
|| errno == EAGAIN)); if (err != 1) die("fread", errno);`. -/
def read_buf : List ReadRes → ReadOut
  | [] => .rstuck
  | .rok :: _ => .rok
  | .rfail e :: rs => if e = EINTR ∨ e = EAGAIN then read_buf rs else .rdied e

/-! ## The server loop (lines 664-673) and process-level run -/

/-- The event input of one server-loop iteration: the accept outcomes,
whether one or more SIGHUP restarts arrived since the last iteration
(coalesced, as the C flag is), whether `popen` succeeds if attempted, the
`fread` outcomes, and the per-client `write` outcome traces (indexed by
position in the pre-pass registry). -/
structure IterEv where
  acc : List AcceptEv
  restart : Bool
  spawnOk : Bool
  reads : List ReadRes
  wtr : Nat → List WriteRes

/-- Result of one loop body: death via `die e` at state `s`, an exhausted
event trace, or the next state. -/
inductive BRes where
  | died (e : Nat) (s : St)
  | stuck
  | next (s : St)

/-- One iteration of the main server loop (lines 664-671): deliver the
pending restart signal, `check_for_new_clients()`, `open_src()` (with
`cnt` read from the registry), `if (read_buf()) write_buf();` —
descriptors of clients dropped by `write_buf` are `close`d. -/
def body (bufsz : Nat) (ev : IterEv) (s : St) : BRes :=
  let s0 := if ev.restart = true then reopen_src s else s
  match check_for_new_clients ev.acc s0 with
  | .error x => .died x.1 x.2
  | .ok s1 =>
    match open_src ev.spawnOk s1.registry.length s1 with
    | .error x => .died x.1 x.2
    | .ok s2 =>
      match read_buf ev.reads with
      | .rstuck => .stuck
      | .rdied e => .died e s2
      | .rok =>
        match write_buf bufsz ev.wtr s2.registry with
        | none => .stuck
        | some o => .next { s2 with registry := o.reg, closedFds := s2.closedFds ++ o.dropped }

/-- Run the first iterations' bodies, ignoring the loop's exit test:
`some` final state if every body stepped, `none` if one died or stuck. -/
def runBodies (bufsz : Nat) : List IterEv → St → Option St
  | [], s => some s
  | ev :: evs, s =>
    match body bufsz ev s with
    | .next s' => runBodies bufsz evs s'
    | .died _ _ => none
    | .stuck => none

/-- Result of the `do { ... } while (cnt);` loop: normal termination (the
`while` test saw `cnt == 0`), death inside the body via `die`, a stuck
modelled trace, or an exhausted event list with the loop still running. -/
inductive LoopRes where
  | exitNormal (s : St)
  | fatal (e : Nat) (s : St)
  | stuck
  | outOfEvents (s : St)

/-- The main server loop (lines 664-671): run the body, then test
`while (cnt)` — the loop exits exactly when the registry is empty after a
body. -/
def runLoop (bufsz : Nat) : List IterEv → St → LoopRes
  | [], s => .outOfEvents s
  | ev :: evs, s =>
    match body bufsz ev s with
    | .died e s' => .fatal e s'
    | .stuck => .stuck
    | .next s' =>
      if s'.registry.length = 0 then .exitNormal s' else runLoop bufsz evs s'

/-- Process-level outcome of the server: every exit goes through `die` —
`die("", 0)` after normal loop termination (line 673), `die(_, e)` on a
fatal condition inside the loop. -/
inductive ServerOutcome where
  | exited (x : Exit)
  | stuck
  | outOfEvents (s : St) (w : World)

/-- The server process from loop entry on: run the loop, route both exits
through `die` with the state at that point (lines 664-674). -/
def runServer (bufsz : Nat) (evs : List IterEv) (s : St) (w : World) : ServerOutcome :=
  match runLoop bufsz evs s with
  | .exitNormal s' => .exited (die 0 s' w)
  | .fatal e s' => .exited (die e s' w)
  | .stuck => .stuck
  | .outOfEvents s' => .outOfEvents s' w

/-- C4: the server loop terminates normally if and only if some iteration's
body completes (no fatal error and no exhausted trace up to that point)
with the registry empty, and it is the first iteration after which the
registry is empty: the `while (cnt)` test, taken after the accept /
source-management / pump cycle, is the unique normal exit. -/
theorem server_loop_terminates_iff_registry_empty (bufsz : Nat) :
    ∀ (evs : List IterEv) (s : St),
      (∃ s', runLoop bufsz evs s = .exitNormal s') ↔
      ∃ k, k < evs.length
        ∧ (∃ s', runBodies bufsz (List.take (k + 1) evs) s = some s'
             ∧ s'.registry.length = 0)
        ∧ ∀ j, j < k → ∀ s'', runBodies bufsz (List.take (j + 1) evs) s = some s'' →
            s''.registry.length ≠ 0 := by
  intro evs
  induction evs with
  | nil =>
    intro s
    constructor
    · rintro ⟨s', h⟩
      simp [runLoop] at h
    · rintro ⟨k, hk, _⟩
      simp at hk
  | cons ev evs ih =>
    intro s
    cases hb : body bufsz ev s with
    | died e s1 =>
      constructor
      · rintro ⟨s', h⟩
        simp [runLoop, hb] at h
      · rintro ⟨k, hk, ⟨s', hs', _⟩, _⟩
        rw [List.take_succ_cons] at hs'
        simp [runBodies, hb] at hs'
    | stuck =>
      constructor
      · rintro ⟨s', h⟩
        simp [runLoop, hb] at h
      · rintro ⟨k, hk, ⟨s', hs', _⟩, _⟩
        rw [List.take_succ_cons] at hs'
        simp [runBodies, hb] at hs'
    | next s1 =>
      have hstep : ∀ (n : Nat), runBodies bufsz (List.take (n + 1) (ev :: evs)) s =
          runBodies bufsz (List.take n evs) s1 := by
        intro n
        rw [List.take_succ_cons]
        simp [runBodies, hb]
      by_cases h0 : s1.registry.length = 0
      · constructor
        · intro _
          refine ⟨0, by simp, ⟨s1, ?_, h0⟩, ?_⟩
          · rw [hstep 0]
            simp [runBodies]
          · intro j hj
            exact absurd hj (Nat.not_lt_zero j)
        · intro _
          exact ⟨s1, by simp [runLoop, hb, h0]⟩
      · have hL : runLoop bufsz (ev :: evs) s = runLoop bufsz evs s1 := by
          simp [runLoop, hb, h0]
        rw [hL, ih s1]
        constructor
        · rintro ⟨k, hk, ⟨s', hs', hreg⟩, hmin⟩
          refine ⟨k + 1, by simpa using Nat.succ_lt_succ hk, ⟨s', ?_, hreg⟩, ?_⟩
          · rw [hstep (k + 1)]
            exact hs'
          · intro j hj s'' h''
            cases j with
            | zero =>
              rw [hstep 0] at h''
              simp [runBodies] at h''
              rw [← h'']
              exact h0
            | succ i =>
              rw [hstep (i + 1)] at h''
              exact hmin i (by omega) s'' h''
        · rintro ⟨k, hk, ⟨s', hs', hreg⟩, hmin⟩
          cases k with
          | zero =>
            exfalso
            rw [hstep 0] at hs'
            simp [runBodies] at hs'
            rw [← hs'] at hreg
            exact h0 hreg
          | succ i =>
            refine ⟨i, by simpa using Nat.lt_of_succ_lt_succ hk, ⟨s', ?_, hreg⟩, ?_⟩
            · rw [hstep (i + 1)] at hs'
              exact hs'
            · intro j hj s'' h''
              exact hmin (j + 1) (by omega) s'' (by rw [hstep (j + 1)]; exact h'')

/-- C3 (amended): a short or failed read from the producer — after
transparent retries on EINTR/EAGAIN — is fatal to the whole server: the
iteration dies, the full cleanup sequence runs (socket file and pid file
unlinked, source closed, every client closed), and the process terminates
with status equal to the errno prevailing at the failing read.  That
status is non-zero for genuine read errors but is `0` when a clean
end-of-stream is hit with errno still `0` (see the counterexample). -/
theorem read_buf_fatal_cleanup :
    ∀ (bufsz : Nat) (ev : IterEv) (evs : List IterEv) (s s1 s2 : St) (w : World) (e : Nat),
      check_for_new_clients ev.acc (if ev.restart = true then reopen_src s else s) = .ok s1 →
      open_src ev.spawnOk s1.registry.length s1 = .ok s2 →
      read_buf ev.reads = .rdied e →
      runServer bufsz (ev :: evs) s w = .exited (die e s2 w)
      ∧ (die e s2 w).world.sockExists = false
      ∧ (die e s2 w).world.pidExists = false
      ∧ (die e s2 w).st.registry = []
      ∧ (die e s2 w).st.src = false
      ∧ (die e s2 w).st.listenCreated = false
      ∧ (die e s2 w).status = e := by
  intro bufsz ev evs s s1 s2 w e h1 h2 h3
  have hb : body bufsz ev s = .died e s2 := by
    simp [body, h1, h2, h3]
  refine ⟨?_, rfl, rfl, rfl, ?_, ?_, rfl⟩
  · simp [runServer, runLoop, hb]
  · simp [die, rm_sockfile, close_src_src]
  · by_cases h : s2.src <;> simp [die, rm_sockfile, close_src, h]

/-- Witness for C3 (amended): a genuine read error (errno EIO = 5) with
one client connected and the source open kills the server with status 5
and both files unlinked. -/
theorem read_buf_fatal_cleanup_witness :
    runServer 4096 [⟨[.wouldBlock], false, true, [.rfail 5], fun _ => []⟩]
        ⟨[⟨9, true⟩], true, false, true, false, 1, 0, []⟩ ⟨true, true, true, false⟩ =
      .exited (die 5 ⟨[⟨9, true⟩], true, false, true, false, 1, 0, []⟩ ⟨true, true, true, false⟩)
    ∧ (die 5 ⟨[⟨9, true⟩], true, false, true, false, 1, 0, []⟩
        ⟨true, true, true, false⟩).world.sockExists = false
    ∧ (die 5 ⟨[⟨9, true⟩], true, false, true, false, 1, 0, []⟩
        ⟨true, true, true, false⟩).world.pidExists = false
    ∧ (die 5 ⟨[⟨9, true⟩], true, false, true, false, 1, 0, []⟩
        ⟨true, true, true, false⟩).st.registry = []
    ∧ (die 5 ⟨[⟨9, true⟩], true, false, true, false, 1, 0, []⟩
        ⟨true, true, true, false⟩).st.src = false
    ∧ (die 5 ⟨[⟨9, true⟩], true, false, true, false, 1, 0, []⟩
        ⟨true, true, true, false⟩).st.listenCreated = false
    ∧ (die 5 ⟨[⟨9, true⟩], true, false, true, false, 1, 0, []⟩
        ⟨true, true, true, false⟩).status = 5 :=
  read_buf_fatal_cleanup 4096 ⟨[.wouldBlock], false, true, [.rfail 5], fun _ => []⟩ []
    ⟨[⟨9, true⟩], true, false, true, false, 1, 0, []⟩
    ⟨[⟨9, true⟩], true, false, true, false, 1, 0, []⟩
    ⟨[⟨9, true⟩], true, false, true, false, 1, 0, []⟩
    ⟨true, true, true, false⟩ 5 rfl rfl rfl

/-- Counterexample to C3 as stated: with one client connected and the
source open, the producer hits a clean end-of-stream before a full buffer
(`fread` returns 0 without setting errno, so errno is still 0): the retry
loop ends, `die("fread", errno)` runs — and `exit(errno)` terminates the
process with status 0, not a non-zero status. -/
theorem read_buf_eof_exit_status_zero :
    ¬ (∀ x, runServer 4096 [⟨[.wouldBlock], false, true, [.rfail 0], fun _ => []⟩]
          ⟨[⟨5, true⟩], true, false, true, false, 1, 0, []⟩
          ⟨true, true, true, false⟩ = .exited x → x.status ≠ 0) := by
  intro h
  exact h (die 0 ⟨[⟨5, true⟩], true, false, true, false, 1, 0, []⟩
      ⟨true, true, true, false⟩) rfl rfl

/-! ## Process lifecycle: lock, environment, pid file (lines 536-675) -/

/-- POSIX `setenv(name, val, overwrite)` on an environment modelled as an
association list: with `overwrite = 0` an existing binding is kept. -/
def setenv (env : List (String × String)) (name val : String) (overwrite : Bool) :
    List (String × String) :=
  match List.lookup name env with
  | some _ =>
    if overwrite then env.map (fun p => if p.1 = name then (name, val) else p) else env
  | none => env ++ [(name, val)]

/-- Outcome of the server-mode setup in `main` (lines 615-659): an exit
through `die` (which unlinks the socket and pid files), a lock failure
(lines 627-638 — plain `fprintf` + `exit(1)`, no unlinking), or readiness
to enter the loop with the environment the producer will inherit. -/
inductive SetupRes where
  | usageDied (x : Exit)
  | lockFail (status : Nat) (w : World)
  | ready (w : World) (env : List (String × String))
deriving DecidableEq, Repr

/-- Server-mode setup (`main`, lines 615-659): `if (!argc) die("no
arguments", 1)`; open the lock file (`O_CREAT`) and take a non-blocking
exclusive `flock`, each failure printing and calling `exit(1)` directly;
`setenv(DELIVERYPID, <pid>, 0)`; install signal handlers; `wrt_pidfile()`
(dying on failure).  `hasArgs` is `argc != 0`, `lockOpenOk` whether the
`open` succeeds, `pidW` the errno if `fopen(PIDFILE)` fails. -/
def server_setup (w : World) (env0 : List (String × String)) (pid : Nat)
    (hasArgs lockOpenOk : Bool) (pidW : Option Nat) : SetupRes :=
  if hasArgs = false then .usageDied (die 1 initSt w)
  else if lockOpenOk = false then .lockFail 1 w
  else
    let w1 := { w with lockFileExists := true }
    if w1.lockHeldByOther = true then .lockFail 1 w1
    else
      let env1 := setenv env0 DELIVERYPID (toString pid) false
      match pidW with
      | some e => .usageDied (die e initSt w1)
      | none => .ready { w1 with pidExists := true } env1

/-- The environment the spawned producer inherits, if setup reached the
server loop (`popen` inherits the process environment, line 393). -/
def spawn_env : SetupRes → Option (List (String × String))
  | .ready _ env => some env
  | _ => none

/-- Outcome of a client-mode invocation: an exit through `die`, or the
successful `execvp` of the client command with the stream as stdin. -/
inductive ClientRes where
  | clientDied (x : Exit)
  | execed (argv : List String) (w : World)
deriving DecidableEq, Repr

/-- Connection phase outcomes for client mode: `socket` fails, `connect`
fails, or the connection is established. -/
inductive ClientConn where
  | sockFail (e : Nat)
  | connFail (e : Nat)
  | connected
deriving DecidableEq, Repr

/-- `default_client_argv` (line 503): with no command given, run `cat`. -/
def default_client_argv : List String := ["cat"]

/-- `client` (lines 505-531): substitute the default command, create the
socket and connect (each failure goes through `die(..., errno)` — in the
client process `src_fd` is 0 and `cnt` is 0, but `die` still unlinks the
socket and pid files), then `dup2` and `execvp`. -/
def client (w : World) (conn : ClientConn) (argv : List String) : ClientRes :=
  let argv1 := if argv = [] then default_client_argv else argv
  match conn with
  | .sockFail e => .clientDied (die e initSt w)
  | .connFail e => .clientDied (die e initSt w)
  | .connected => .execed argv1 w

/-- C8: starting a second server instance with the same configured name
while a first instance holds the singleton lock fails immediately with
status 1: the setup result is `lockFail` with the world returned exactly
as it was — the first instance's socket file, pid file and lock are
untouched — and the second instance neither reaches `ready` (so it never
creates a listening endpoint or spawns a producer) nor exits through
`die` (so it unlinks nothing). -/
theorem second_instance_lock_fail :
    ∀ (w : World) (env0 : List (String × String)) (pid : Nat) (pidW : Option Nat),
      w.lockHeldByOther = true → w.lockFileExists = true →
      server_setup w env0 pid true true pidW = .lockFail 1 w
      ∧ (∀ w' env', server_setup w env0 pid true true pidW ≠ .ready w' env')
      ∧ (∀ x, server_setup w env0 pid true true pidW ≠ .usageDied x) := by
  intro w env0 pid pidW hlock hfile
  obtain ⟨so, pi, lf, lo⟩ := w
  obtain rfl : lo = true := hlock
  obtain rfl : lf = true := hfile
  have h : server_setup ⟨so, pi, true, true⟩ env0 pid true true pidW =
      .lockFail 1 ⟨so, pi, true, true⟩ := by
    simp [server_setup]
  refine ⟨h, ?_, ?_⟩
  · intro w' env'
    simp [h]
  · intro x
    simp [h]

/-- Witness for C8: a concrete world in which another process holds the
lock and both artifact files exist. -/
theorem second_instance_lock_fail_witness :
    server_setup ⟨true, true, true, true⟩ [] 7 true true none =
      .lockFail 1 ⟨true, true, true, true⟩ :=
  (second_instance_lock_fail ⟨true, true, true, true⟩ [] 7 none rfl rfl).1

/-- Looking up a key appended to a list that does not contain it. -/
lemma lookup_append_absent (name v : String) :
    ∀ l : List (String × String), List.lookup name l = none →
      List.lookup name (l ++ [(name, v)]) = some v := by
  intro l
  induction l with
  | nil =>
    intro _
    simp [List.lookup]
  | cons p l ih =>
    intro h
    by_cases hk : name == p.1
    · simp [List.lookup, hk] at h
    · simp only [List.cons_append, List.lookup, hk]
      exact ih (by simpa [List.lookup, hk] using h)

/-- C9 (amended): whenever setup reaches the server loop (and hence
whenever the producer command is spawned), the inherited environment is
`setenv(env0, _DELIVERY_PID, <pid>, 0)`: the marker variable is always
present, and it carries this server's own pid exactly when the variable
was not already present in the inherited environment (`setenv` with
`overwrite = 0` keeps a pre-existing value). -/
theorem producer_env_marker :
    ∀ (w : World) (env0 : List (String × String)) (pid : Nat)
      (ha lo : Bool) (pidW : Option Nat) (w' : World) (env' : List (String × String)),
      server_setup w env0 pid ha lo pidW = .ready w' env' →
      env' = setenv env0 DELIVERYPID (toString pid) false
      ∧ (List.lookup DELIVERYPID env').isSome = true
      ∧ (List.lookup DELIVERYPID env0 = none →
          List.lookup DELIVERYPID env' = some (toString pid)) := by
  intro w env0 pid ha lo pidW w' env' h
  have henv : env' = setenv env0 DELIVERYPID (toString pid) false := by
    cases ha <;> cases lo <;> simp [server_setup] at h
    by_cases hl : w.lockHeldByOther = true
    · simp [hl] at h
    · cases pidW with
      | some e => simp [hl] at h
      | none =>
        simp [hl] at h
        exact h.2.symm
  refine ⟨henv, ?_, ?_⟩
  · rw [henv]
    cases hl : List.lookup DELIVERYPID env0 with
    | some v => simp [setenv, hl]
    | none => simp [setenv, hl, lookup_append_absent DELIVERYPID (toString pid) env0 hl]
  · intro hl
    rw [henv]
    simp [setenv, hl, lookup_append_absent DELIVERYPID (toString pid) env0 hl]

/-- Witness for C9 (amended): from an inherited environment without the
marker, setup publishes `_DELIVERY_PID = toString pid`. -/
theorem producer_env_marker_witness :
    setenv [] DELIVERYPID (toString 7) false = setenv [] DELIVERYPID (toString 7) false
    ∧ (List.lookup DELIVERYPID (setenv [] DELIVERYPID (toString 7) false)).isSome = true
    ∧ (List.lookup DELIVERYPID ([] : List (String × String)) = none →
        List.lookup DELIVERYPID (setenv [] DELIVERYPID (toString 7) false) =
          some (toString 7)) := by
  have h := producer_env_marker ⟨false, false, false, false⟩ [] 7 true true none
    ⟨false, true, true, false⟩ (setenv [] DELIVERYPID (toString 7) false) rfl
  exact ⟨rfl, h.2.1, h.2.2⟩

/-- Counterexample to C9 as stated: if the server's own inherited
environment already defines `_DELIVERY_PID` (say to `"999"`), `setenv`
with `overwrite = 0` keeps the old value, so a server with pid 42 spawns
the producer with the marker carrying `"999"`, not its own pid. -/
theorem producer_env_preexisting_marker :
    ∃ env', spawn_env (server_setup ⟨false, false, false, false⟩
        [(DELIVERYPID, "999")] 42 true true none) = some env'
      ∧ List.lookup DELIVERYPID env' ≠ some (toString 42) := by
  refine ⟨[(DELIVERYPID, "999")], rfl, ?_⟩
  intro h
  simp [List.lookup, DELIVERYPID] at h
  exact absurd h (by decide)

/-- C10: every exit through `die`, in every invocation mode, unlinks both
the socket file and the pid file derived from the configured name — even
when the exiting process is not the server that created them.  In
particular a client-mode invocation whose `connect` fails, and a server
invocation rejected for missing arguments before the lock is even
acquired, both remove a running server's rendezvous endpoint and identity
record from the world. -/
theorem die_unlinks_all_modes :
    ∀ (e status : Nat) (s : St) (w : World) (argv : List String)
      (env0 : List (String × String)) (pid : Nat) (lo : Bool) (pidW : Option Nat),
      ((die status s w).world.sockExists = false ∧ (die status s w).world.pidExists = false)
      ∧ client w (.connFail e) argv = .clientDied (die e initSt w)
      ∧ server_setup w env0 pid false lo pidW = .usageDied (die 1 initSt w)
      ∧ (die e initSt w).world.sockExists = false
      ∧ (die e initSt w).world.pidExists = false := by
  intro e status s w argv env0 pid lo pidW
  exact ⟨⟨rfl, rfl⟩, rfl, by simp [server_setup], rfl, rfl⟩

end Delivery
